import Mathlib

/-!
Verification of the go-yinfft repository: a shallow embedding of the
YinFFT pitch detector (`yinfft.go`) and its generic peak detector
(`internal/peakdetector/peakdetector.go`) in Lean 4, together with
theorems settling the specification claims.

Modelling conventions:
* Go `float64` arithmetic is modelled as exact rational arithmetic (`ℚ`).
  Division by zero yields `0` in `ℚ`; theorems carry hypotheses that keep
  the modelled runs away from Go's non-finite values where it matters.
* Go `int` is modelled as `ℤ` (or `ℕ` where the source value is a length).
* The external FFT primitive (`fft.FFTReal`) is an out-of-scope
  collaborator; the estimator only consumes `magnitude[i]*cos(phase[i])`,
  which equals the real part of the i-th FFT bin, so the embedding is
  parameterised by a function `fftRe` giving those real parts.
  `math.Pow(10, ·)` is likewise passed in as a parameter `pow10`.
* A Go call can return a value, return an error, or panic (index out of
  range); `GoOutcome` has one constructor for each.
-/

/-- Model of `strings.ToUpper` (and Lean's own `String.toUpper`): upper-case every
character.  Written over the character list so it evaluates by kernel reduction. -/
def goToUpper (s : String) : String := ⟨s.data.map Char.toUpper⟩

/-- Result of running a Go function: normal value, returned error, or runtime panic. -/
inductive GoOutcome (α : Type) where
  | ok (val : α)
  | err (msg : String)
  | panic
deriving Repr, DecidableEq

namespace peakdetector

/-- A detected peak: `position` is a physical (scaled, possibly fractional) coordinate,
`magnitude` the value there.  Mirrors `type peak struct` in peakdetector.go. -/
structure Peak where
  position : ℚ
  magnitude : ℚ
deriving Repr, DecidableEq

/-- Configuration of the peak detector, mirroring `type Params struct` in peakdetector.go.
`OrderBy` is the raw string as in the source. -/
structure Params where
  Range : ℚ
  MaxPeaks : ℕ
  MaxPosition : ℚ
  MinPosition : ℚ
  Threshold : ℚ
  OrderBy : String
  ShouldInterpolate : Bool
  MinPeakDistance : ℚ
deriving Repr, DecidableEq

/-- Parabolic interpolation of a single-sample peak, mirroring `interpolate` in
peakdetector.go: `deltaX = 0.5*((left-right)/(left-2*middle+right))`,
`resultVal = middle - 0.25*(left-right)*deltaX`, `resultBin = bin + deltaX`.
Returns `(resultVal, resultBin)` in the source's order. -/
def interpolate (leftVal middleVal rightVal : ℚ) (currentBin : ℕ) : ℚ × ℚ :=
  let deltaX : ℚ := 1/2 * ((leftVal - rightVal) / (leftVal - 2 * middleVal + rightVal))
  (middleVal - 1/4 * (leftVal - rightVal) * deltaX, (currentBin : ℚ) + deltaX)

/-- Element access on the scanned slice (`input[i]`); all in-loop accesses of the source
are guarded by the loop conditions, so the default is never reached on the Go paths. -/
def at' (input : List ℚ) (i : ℕ) : ℚ := input.getD i 0

/-- Structural core of `advDown` (fuel bounds the iteration count; the loop advances `i`
at most `len(input)` times, so `len(input)` fuel always suffices). -/
def advDownAux (input : List ℚ) : ℕ → ℕ → ℕ
  | 0, i => i
  | fuel + 1, i =>
    if i + 1 < input.length - 1 ∧ at' input i ≥ at' input (i + 1) then
      advDownAux input fuel (i + 1)
    else i

/-- First inner loop of `DetectPeaks`:
`for i+1 < len(input)-1 && input[i] >= input[i+1] { i++ }`. -/
def advDown (input : List ℚ) (i : ℕ) : ℕ := advDownAux input input.length i

/-- Structural core of `advUp`. -/
def advUpAux (input : List ℚ) : ℕ → ℕ → ℕ
  | 0, i => i
  | fuel + 1, i =>
    if i + 1 < input.length - 1 ∧ at' input i < at' input (i + 1) then
      advUpAux input fuel (i + 1)
    else i

/-- Second inner loop of `DetectPeaks`:
`for i+1 < len(input)-1 && input[i] < input[i+1] { i++ }`. -/
def advUp (input : List ℚ) (i : ℕ) : ℕ := advUpAux input input.length i

/-- Structural core of `plateau`. -/
def plateauAux (input : List ℚ) : ℕ → ℕ → ℕ
  | 0, j => j
  | fuel + 1, j =>
    if j + 1 < input.length - 1 ∧ at' input j = at' input (j + 1) then
      plateauAux input fuel (j + 1)
    else j

/-- Plateau extension of `DetectPeaks`:
`j := i; for j+1 < len(input)-1 && input[j] == input[j+1] { j++ }`. -/
def plateau (input : List ℚ) (j : ℕ) : ℕ := plateauAux input input.length j

/-- The `(resultVal, resultBin)` pair of the interior-candidate branch of `DetectPeaks`:
plateau value with midpoint/left-edge bin for a plateau (`j != i`), parabolic
interpolation or the raw sample for a single-sample peak. -/
def candidateVB (p : Params) (input : List ℚ) (i2 j : ℕ) : ℚ × ℚ :=
  if j ≠ i2 then
    (at' input i2, if p.ShouldInterpolate then ((i2 : ℚ) + (j : ℚ)) * (1/2) else (i2 : ℚ))
  else if p.ShouldInterpolate then
    interpolate (at' input (j - 1)) (at' input j) (at' input (j + 1)) j
  else (at' input j, (j : ℚ))

/-- The interior-candidate computation of `DetectPeaks` at plateau `[i2, j]`:
`none` when the three-way guard fails (no local maximum here), `some none` when the
candidate's physical position exceeds `MaxPosition` (Go `break`), and `some (some pk)`
when the peak `pk` is recorded. -/
def candidateOf (p : Params) (input : List ℚ) (scale : ℚ) (i2 j : ℕ) : Option (Option Peak) :=
  if j + 1 < input.length - 1 ∧ at' input (j + 1) < at' input j ∧ at' input j > p.Threshold
  then
    let resultPos := (candidateVB p input i2 j).2 * scale
    if resultPos > p.MaxPosition then some none
    else some (some ⟨resultPos, (candidateVB p input i2 j).1⟩)
  else none

/-- The peak list contributed by a candidate (empty unless a peak was recorded). -/
def peaksOfCand : Option (Option Peak) → List Peak
  | some (some pk) => [pk]
  | _ => []

/-- The trailing local-maximum check at interior-loop exit
(`if i == len(input)-2 && input[i-1] < input[i] && ...`): reading `input[i-1]` with
`i = 0` is a Go panic (reachable for inputs of length 2). -/
def trailingOf (p : Params) (input : List ℚ) (scale : ℚ) (j : ℕ) : GoOutcome (List Peak) :=
  if j = input.length - 2 then
    if j = 0 then .panic
    else if at' input (j - 1) < at' input j ∧ at' input (j + 1) < at' input j ∧
        at' input j > p.Threshold then
      let vb : ℚ × ℚ :=
        if p.ShouldInterpolate then
          interpolate (at' input (j - 1)) (at' input j) (at' input (j + 1)) j
        else (at' input j, (j : ℚ))
      .ok [⟨vb.2 * scale, vb.1⟩]
    else .ok []
  else .ok []

/-- The interior `for {}` loop of `DetectPeaks`, fuelled (the Go loop advances `i`
strictly, so any fuel of at least `len(input)` reproduces it).  Returns
`(interior, trailing)`: the peaks appended by the interior-candidate branch, and the
peak (if any) appended by the trailing local-maximum check at loop exit.  A break via
the `resultPos > MaxPosition` check (`candidateOf = some none`) skips the trailing
check. -/
def interiorScan (p : Params) (input : List ℚ) (scale : ℚ) :
    ℕ → ℕ → GoOutcome (List Peak × List Peak)
  | 0, _ => .ok ([], [])
  | fuel + 1, i =>
    let n := input.length
    let i2 := advUp input (advDown input i)
    let j := plateau input i2
    let cand := candidateOf p input scale i2 j
    if cand = some none then .ok ([], [])
    else
      let newPeaks := peaksOfCand cand
      if j + 1 ≥ n - 1 then
        match trailingOf p input scale j with
        | .ok tr => .ok (newPeaks, tr)
        | .err e => .err e
        | .panic => .panic
      else
        match interiorScan p input scale fuel j with
        | .ok (rest, trail) => .ok (newPeaks ++ rest, trail)
        | o => o

/-- The interior-branch peaks collected by `interiorScan` (empty on a panic). -/
def interiorPeaksOf (p : Params) (input : List ℚ) (scale : ℚ) (fuel i : ℕ) : List Peak :=
  match interiorScan p input scale fuel i with
  | .ok (l, _) => l
  | _ => []

/-- Comparator-driven sort used for `sortPeaksByMagnitude` in peakdetector.go:
magnitude descending, ties by position ascending (insertion sort realising the
`slices.SortFunc` comparator). -/
def magLE (a b : Peak) : Prop := b.magnitude < a.magnitude ∨
  (a.magnitude = b.magnitude ∧ a.position ≤ b.position)

instance : DecidableRel magLE := fun a b => by unfold magLE; infer_instance

/-- Insert one peak into a magnitude-sorted list. -/
def insertByMag (a : Peak) : List Peak → List Peak
  | [] => [a]
  | b :: l => if magLE a b then a :: b :: l else b :: insertByMag a l

/-- `sortPeaksByMagnitude` of peakdetector.go. -/
def sortPeaksByMagnitude (peaks : List Peak) : List Peak :=
  peaks.foldr insertByMag []

/-- Comparator of `sortPeaksByPosition`: position ascending, ties by magnitude descending. -/
def posLE (a b : Peak) : Prop := a.position < b.position ∨
  (a.position = b.position ∧ b.magnitude ≤ a.magnitude)

instance : DecidableRel posLE := fun a b => by unfold posLE; infer_instance

/-- Insert one peak into a position-sorted list. -/
def insertByPos (a : Peak) : List Peak → List Peak
  | [] => [a]
  | b :: l => if posLE a b then a :: b :: l else b :: insertByPos a l

/-- `sortPeaksByPosition` of peakdetector.go. -/
def sortPeaksByPosition (peaks : List Peak) : List Peak :=
  peaks.foldr insertByPos []

/-- The minimum-peak-distance pruning loop of `DetectPeaks`:
`for k := range len(peaks)-1 { ... }` with the bound frozen at entry, deleting (from the
suffix after `k`) every peak whose position lies strictly inside
`(peaks[k].position - MinPeakDistance, peaks[k].position + MinPeakDistance)`.
Accessing `peaks[k]` on a list shrunk below `k+1` elements is a Go panic. -/
def pruneLoopAux (dist : ℚ) : ℕ → ℕ → List Peak → GoOutcome (List Peak)
  | 0, _, peaks => .ok peaks
  | fuel + 1, k, peaks =>
    if k < peaks.length then
      let pk := peaks.getD k ⟨0, 0⟩
      let kept := peaks.take (k + 1) ++ (peaks.drop (k + 1)).filter
        (fun q => !(q.position > pk.position - dist ∧ q.position < pk.position + dist))
      pruneLoopAux dist fuel (k + 1) kept
    else .panic

/-- Entry point of the pruning loop: iterate `k` from `k` while `k < bound` (the
remaining iteration count `bound - k` is the structural fuel). -/
def pruneLoop (dist : ℚ) (bound k : ℕ) (peaks : List Peak) : GoOutcome (List Peak) :=
  pruneLoopAux dist (bound - k) k peaks

/-- `New(params)` of peakdetector.go: require `MinPosition < MaxPosition` and a valid
`OrderBy`. -/
def New (params : Params) : Except String Params :=
  if params.MinPosition ≥ params.MaxPosition then
    .error "MinPosition must be less than MaxPosition"
  else if params.OrderBy ≠ "position" ∧ params.OrderBy ≠ "amplitude" then
    .error "invalid OrderBy value"
  else .ok params

/-- Bin-to-position scale of `DetectPeaks`: `scale = Range / (len(input)-1)`. -/
def scaleOf (p : Params) (input : List ℚ) : ℚ := p.Range / ((input.length : ℚ) - 1)

/-- Scan start of `DetectPeaks`: `i = max(0, int(ceil(MinPosition/scale)))`. -/
def startIndex (p : Params) (input : List ℚ) : ℕ :=
  (max 0 ⌈p.MinPosition / scaleOf p input⌉).toNat

/-- The start-of-scan special case of `DetectPeaks`: a descending first in-range sample
above threshold is recorded immediately, with no `MaxPosition` check. -/
def startPeakList (p : Params) (input : List ℚ) : List Peak :=
  let i0 := startIndex p input
  if i0 + 1 < input.length ∧ at' input i0 > at' input (i0 + 1) ∧ at' input i0 > p.Threshold
  then [⟨(i0 : ℚ) * scaleOf p input, at' input i0⟩]
  else []

/-- The final boundary check of `DetectPeaks`: report the very last sample when
`MaxPosition/scale` falls in `(len-2, len-1]` and the last sample dominates its
predecessor and the threshold. -/
def lastPeakList (p : Params) (input : List ℚ) : List Peak :=
  let n := input.length
  let pos := p.MaxPosition / scaleOf p input
  if ((n : ℚ) - 2) < pos ∧ pos ≤ ((n : ℚ) - 1) ∧ at' input (n - 1) > at' input (n - 2) ∧
      at' input (n - 1) > p.Threshold then
    [⟨((n : ℚ) - 1) * scaleOf p input, at' input (n - 1)⟩]
  else []

/-- The pruning/ordering stage of `DetectPeaks`: when `MinPeakDistance > 0` and more than
one peak was found, sort by magnitude, run the (panic-prone) pruning loop and re-sort by
position if requested; otherwise sort by magnitude only when amplitude ordering was
requested. -/
def orderOrPrune (p : Params) (peaks : List Peak) : GoOutcome (List Peak) :=
  if p.MinPeakDistance > 0 ∧ peaks.length > 1 then
    let sorted := sortPeaksByMagnitude peaks
    match pruneLoop p.MinPeakDistance (sorted.length - 1) 0 sorted with
    | .ok pruned =>
      .ok (if p.OrderBy = "position" then sortPeaksByPosition pruned else pruned)
    | o => o
  else
    .ok (if p.OrderBy = "amplitude" then sortPeaksByMagnitude peaks else peaks)

/-- `DetectPeaks(input)` of peakdetector.go: the start-of-scan special case, the interior
loop, the last-sample boundary check, optional minimum-distance pruning, ordering, and
truncation to `MaxPeaks`. -/
def detectPeaks (p : Params) (input : List ℚ) : GoOutcome (List ℚ × List ℚ) :=
  if input.length < 2 then .err "input length should be >= 2" else
  match interiorScan p input (scaleOf p input) (input.length + 1) (startIndex p input) with
  | .panic => .panic
  | .err e => .err e
  | .ok (interior, trailing) =>
    let peaks := startPeakList p input ++ interior ++ trailing ++ lastPeakList p input
    match orderOrPrune p peaks with
    | .ok final =>
      let wantPeaks := min p.MaxPeaks final.length
      .ok ((final.take wantPeaks).map Peak.position, (final.take wantPeaks).map Peak.magnitude)
    | .err e => .err e
    | .panic => .panic

end peakdetector

namespace yinfft

/-- Number of breakpoints in every weighting curve (`curveSize` in yinfft.go). -/
def curveSize : ℕ := 34

/-- Breakpoint frequencies of the weighting curves (`frequencyBands` in yinfft.go). -/
def frequencyBands : List ℚ :=
  [0, 20, 25, 31.5, 40, 50, 63, 80, 100, 125, 160, 200, 250, 315, 400, 500, 630, 800, 1000, 1250,
   1600, 2000, 2500, 3150, 4000, 5000, 6300, 8000, 9000, 10000, 12500, 15000, 20000, 25100]

/-- The all-zero decibel curve (`"EMPTY"` entry of `weightingCurves` in yinfft.go). -/
def emptyCurve : List ℚ := List.replicate curveSize 0

/-- The `"CUSTOM"` weighting curve of yinfft.go (float32 literals modelled as exact rationals). -/
def customCurve : List ℚ :=
  [-75.8, -70.1, -60.8, -52.1, -44.2, -37.5, -31.3, -25.6, -20.9, -16.5, -12.6, -9.6, -7.0, -4.7,
   -3.0, -1.8, -0.8, -0.2, 0.0, 0.5, 1.6, 3.2, 5.4, 7.8, 8.1, 5.3, -2.4, -11.1, -12.8, -12.2,
   -7.4, -17.8, -17.8, -17.8]

/-- The `"A"` weighting curve of yinfft.go. -/
def aCurve : List ℚ :=
  [-148.6, -50.4, -44.8, -39.5, -34.5, -30.3, -26.2, -22.4, -19.1, -16.2, -13.2, -10.8, -8.7,
   -6.6, -4.8, -3.2, -1.9, -0.8, 0.0, 0.6, 1.0, 1.2, 1.3, 1.2, 1.0, 0.6, -0.1, -1.1, -1.8, -2.5,
   -4.3, -6.0, -9.3, -12.4]

/-- The `"B"` weighting curve of yinfft.go. -/
def bCurve : List ℚ :=
  [-96.4, -24.2, -20.5, -17.1, -14.1, -11.6, -9.4, -7.3, -5.6, -4.2, -2.9, -2.0, -1.4, -0.9,
   -0.5, -0.3, -0.1, 0.0, 0.0, 0.0, 0.0, -0.1, -0.2, -0.4, -0.7, -1.2, -1.9, -2.9, -3.6, -4.3,
   -6.1, -7.8, -11.2, -14.2]

/-- The `"C"` weighting curve of yinfft.go. -/
def cCurve : List ℚ :=
  [-52.5, -6.2, -4.4, -3.0, -2.0, -1.3, -0.8, -0.5, -0.3, -0.2, -0.1, 0.0, 0.0, 0.0, 0.0, 0.0,
   0.0, 0.0, 0.0, 0.0, -0.1, -0.2, -0.3, -0.5, -0.8, -1.3, -2.0, -3.0, -3.7, -4.4, -6.2, -7.9,
   -11.3, -14.3]

/-- The `"D"` weighting curve of yinfft.go. -/
def dCurve : List ℚ :=
  [-46.6, -20.6, -18.7, -16.7, -14.7, -12.8, -10.9, -8.9, -7.2, -5.6, -3.9, -2.6, -1.6, -0.8,
   -0.4, -0.3, -0.5, -0.6, 0.0, 1.9, 5.0, 7.9, 10.3, 11.5, 11.1, 9.6, 7.6, 5.5, 4.4, 3.4, 1.4,
   -0.2, -2.7, -4.7]

/-- The weighting-curve registry (`weightingCurves` map in yinfft.go), keyed by name. -/
def weightingCurves (name : String) : Option (List ℚ) :=
  if name = "EMPTY" then some emptyCurve
  else if name = "CUSTOM" then some customCurve
  else if name = "A" then some aCurve
  else if name = "B" then some bCurve
  else if name = "C" then some cCurve
  else if name = "D" then some dCurve
  else none

/-- The general-branch decibel line of `computeSpectrumWeights` in yinfft.go:
`(a1-a0)/(f1-f0)*frequency + (a0 - (a1-a0)/(f1/f0-1.0))`. -/
def lineGain (a0 a1 f0 f1 frequency : ℚ) : ℚ :=
  (a1 - a0) / (f1 - f0) * frequency + (a0 - (a1 - a0) / (f1 / f0 - 1))

/-- Structural core of `advanceJ`; the fuel only bounds the iteration count and is chosen
so it never runs out before the loop condition fails. -/
def advanceJAux (frequency : ℚ) : ℕ → ℕ → ℕ
  | 0, j => j
  | fuel + 1, j =>
    if j < curveSize - 1 ∧ frequency > frequencyBands.getD j 0 then
      advanceJAux frequency fuel (j + 1)
    else j

/-- Cursor advance of `computeSpectrumWeights`: `for j < curveSize-1 && frequency >
float64(frequencyBands[j]) { j++ }`.  The loop increments `j` until `j = curveSize-1`
at the latest, so `curveSize` steps always suffice. -/
def advanceJ (frequency : ℚ) (j : ℕ) : ℕ := advanceJAux frequency curveSize j

/-- Body of the weight loop of `computeSpectrumWeights` in yinfft.go: for each bin index
in `bins` compute the bin frequency, advance the breakpoint cursor `j`, pick the branch
of the `switch`, and convert decibels to a linear gain via `pow10 (db / 20)`. -/
def weightsAux (pow10 : ℚ → ℚ) (frameSize : ℕ) (sampleRate : ℚ) (curve : List ℚ) :
    List ℕ → ℕ → List ℚ
  | [], _ => []
  | i :: rest, j =>
    let frequency : ℚ := (i : ℚ) / (frameSize : ℚ) * sampleRate
    let jn := advanceJ frequency j
    let a0 := curve.getD (jn - 1) 0
    let a1 := curve.getD jn 0
    let f0 := frequencyBands.getD (jn - 1) 0
    let f1 := frequencyBands.getD jn 0
    let db : ℚ :=
      if f0 = f1 then a0
      else if f0 = 0 then (a1 - a0) / f1 * frequency + a0
      else lineGain a0 a1 f0 f1 frequency
    pow10 (db / 20) :: weightsAux pow10 frameSize sampleRate curve rest jn

/-- `computeSpectrumWeights(frameSize, sampleRate, curve)` of yinfft.go: one weight per
spectrum bin (`frameSize/2+1` bins), cursor starting at `j = 1`. -/
def computeSpectrumWeights (pow10 : ℚ → ℚ) (frameSize : ℕ) (sampleRate : ℚ)
    (curve : List ℚ) : List ℚ :=
  weightsAux pow10 frameSize sampleRate curve (List.range (frameSize / 2 + 1)) 1

/-- Configuration of the pitch detector, mirroring `type Params struct` in yinfft.go.
`FrameSize` is a length, modelled as `ℕ`. -/
structure Params where
  FrameSize : ℕ
  SampleRate : ℚ
  ShouldInterpolate : Bool
  Tolerance : ℚ
  WeightingType : String
  MinFrequency : ℚ
  MaxFrequency : ℚ
deriving Repr, DecidableEq

/-- The detector state, mirroring `type PitchDetector struct` in yinfft.go.  The period
bounds come from `int(math.Min(...))` computations that can go negative, hence `ℤ`. -/
structure PitchDetector where
  params : Params
  weights : List ℚ
  minPeriodSamples : ℤ
  maxPeriodSamples : ℤ
deriving Repr, DecidableEq

/-- `New(params)` of yinfft.go: derive the period bounds
(`maxPeriodSamples = int(min(ceil(SampleRate/MinFrequency), FrameSize/2))`,
`minPeriodSamples = int(min(floor(SampleRate/MaxFrequency), FrameSize/2))`),
fail when `maxPeriodSamples <= minPeriodSamples`, look up the weighting curve by the
upper-cased name, and build the detector.  `pow10` is the `math.Pow(10, ·)` collaborator
threaded through to `computeSpectrumWeights`. -/
def New (pow10 : ℚ → ℚ) (params : Params) : Except String PitchDetector :=
  let maxPeriodSamples : ℤ :=
    min ⌈params.SampleRate / params.MinFrequency⌉ ((params.FrameSize / 2 : ℕ) : ℤ)
  let minPeriodSamples : ℤ :=
    min ⌊params.SampleRate / params.MaxFrequency⌋ ((params.FrameSize / 2 : ℕ) : ℤ)
  if maxPeriodSamples ≤ minPeriodSamples then
    .error "maxFrequency <= minFrequency or out of range"
  else
    match weightingCurves (goToUpper params.WeightingType) with
    | none => .error "invalid weightingType"
    | some curve =>
      .ok { params := params
            weights := computeSpectrumWeights pow10 params.FrameSize params.SampleRate curve
            minPeriodSamples := minPeriodSamples
            maxPeriodSamples := maxPeriodSamples }

/-- The weighted squared-magnitude sequence built at the top of `DetectFromSpectrum`:
`sqrMag[i] = spectrum[i]^2 * weights[i]` for `i < FrameSize/2+1` and the Hermitian
mirror `sqrMag[FrameSize-i] = sqrMag[i]` for the upper half. -/
def sqrMagFn (pd : PitchDetector) (spectrum : List ℚ) (i : ℕ) : ℚ :=
  let yinLen := pd.params.FrameSize / 2 + 1
  if i < yinLen then spectrum.getD i 0 ^ 2 * pd.weights.getD i 0
  else
    spectrum.getD (pd.params.FrameSize - i) 0 ^ 2 * pd.weights.getD (pd.params.FrameSize - i) 0

/-- The full `sqrMag` array (length `FrameSize`) passed to the FFT collaborator. -/
def sqrMagList (pd : PitchDetector) (spectrum : List ℚ) : List ℚ :=
  (List.range pd.params.FrameSize).map (sqrMagFn pd spectrum)

/-- The energy accumulator of `DetectFromSpectrum`:
`sum = 2 * Σ_{i=1}^{FrameSize/2} spectrum[i]^2 * weights[i]`. -/
def sumOf (pd : PitchDetector) (spectrum : List ℚ) : ℚ :=
  2 * ((List.range' 1 (pd.params.FrameSize / 2)).map (sqrMagFn pd spectrum)).sum

/-- Running sum `tmp` of the raw difference values `sum - Re(FFT(sqrMag)[j])` for
`j = 1..i`, as maintained by the CMND loop of `DetectFromSpectrum`. -/
def yinTmp (s : ℚ) (r : ℕ → ℚ) : ℕ → ℚ
  | 0 => 0
  | i + 1 => yinTmp s r i + (s - r (i + 1))

/-- Entry `i` of the CMND array `yin`: `yin[0] = 1` and for `i ≥ 1`
`yin[i] = (sum - magnitude[i]*cos(phase[i])) * (i / tmp)`, where
`magnitude[i]*cos(phase[i])` is the real part `r i` of FFT bin `i`. -/
def yinAt (s : ℚ) (r : ℕ → ℚ) : ℕ → ℚ
  | 0 => 1
  | i + 1 => (s - r (i + 1)) * (((i + 1 : ℕ) : ℚ) / yinTmp s r (i + 1))

/-- The CMND array of length `FrameSize/2+1` built by `DetectFromSpectrum`. -/
def yinOf (pd : PitchDetector) (fftRe : List ℚ → ℕ → ℚ) (spectrum : List ℚ) : List ℚ :=
  (List.range (pd.params.FrameSize / 2 + 1)).map
    (yinAt (sumOf pd spectrum) (fftRe (sqrMagList pd spectrum)))

/-- `slices.Min` on a nonempty slice (the CMND array always has at least one entry). -/
def goSlicesMin (l : List ℚ) : ℚ :=
  match l with
  | [] => 0
  | x :: xs => xs.foldl min x

/-- One iteration of the direct tau scan of `DetectFromSpectrum`:
`if yin[i] < yinMin { tau = float64(i); yinMin = yin[i] }`. -/
def scanStep (yin : ℕ → ℚ) (acc : ℚ × ℚ) (i : ℕ) : ℚ × ℚ :=
  if yin i < acc.2 then ((i : ℚ), yin i) else acc

/-- The direct tau scan: `tau = 0; yinMin = yin[lo]; for i := lo; i <= hi; i++ { ... }`,
returning the pair `(tau, yinMin)`. -/
def directScan (yin : ℕ → ℚ) (lo hi : ℕ) : ℚ × ℚ :=
  (List.range' lo (hi + 1 - lo)).foldl (scanStep yin) (0, yin lo)

/-- `DetectFromSpectrum` of yinfft.go.  `fftRe` is the FFT collaborator: the real parts
of the bins of `fft.FFTReal` applied to the given real sequence (the source consumes
`magnitude[i]*cos(phase[i])`, which is exactly that real part).  The final `if` models
the Go slice indexing of the direct scan: indices outside `[0, FrameSize/2+1)` panic. -/
def detectFromSpectrum (pd : PitchDetector) (fftRe : List ℚ → ℕ → ℚ) (spectrum : List ℚ) :
    GoOutcome (ℚ × ℚ) :=
  let yinLen := pd.params.FrameSize / 2 + 1
  if spectrum.length ≠ yinLen then .err "invalid spectrum size" else
  if pd.params.FrameSize = 0 then .panic else
  if sumOf pd spectrum = 0 then .ok (0, 0) else
  let yin := yinOf pd fftRe spectrum
  if pd.params.Tolerance < 1 ∧ pd.params.Tolerance ≤ goSlicesMin yin then .ok (0, 0) else
  if pd.params.ShouldInterpolate then .err "interpolation is not yet implemented" else
  if 0 ≤ pd.minPeriodSamples ∧ pd.minPeriodSamples < (yinLen : ℤ) ∧
      (pd.minPeriodSamples ≤ pd.maxPeriodSamples → pd.maxPeriodSamples < (yinLen : ℤ)) then
    let scanRes := directScan (fun i => yin.getD i 0) pd.minPeriodSamples.toNat
      pd.maxPeriodSamples.toNat
    if scanRes.1 ≠ 0 then .ok (pd.params.SampleRate / scanRes.1, 1 - scanRes.2)
    else .ok (0, 0)
  else .panic

/-- The lowest index attaining the minimum of `f` over `[lo, hi]`: `i` is in range, is a
minimiser, and every smaller in-range index carries a strictly larger value. -/
def leastArgminOn (f : ℕ → ℚ) (lo hi i : ℕ) : Prop :=
  lo ≤ i ∧ i ≤ hi ∧ (∀ j, j ≤ hi → lo ≤ j → f i ≤ f j) ∧ (∀ j, j < i → lo ≤ j → f i < f j)

end yinfft

/-- A constant stand-in for the `math.Pow(10, ·)` collaborator; all exact claims about it
only use `pow10 0 = 1`, which this function satisfies. -/
def pow10One : ℚ → ℚ := fun _ => 1

namespace yinfft

/-- Concrete valid parameters: frame size 8, sample rate 8, EMPTY weighting, direct scan.
Derived period bounds: `minPeriodSamples = 1`, `maxPeriodSamples = 3`. -/
def paramsEx : Params :=
  { FrameSize := 8, SampleRate := 8, ShouldInterpolate := false, Tolerance := 1,
    WeightingType := "EMPTY", MinFrequency := 3, MaxFrequency := 8 }

/-- The detector `New pow10One paramsEx` constructs. -/
def pdEx : PitchDetector :=
  { params := paramsEx, weights := computeSpectrumWeights pow10One 8 8 emptyCurve,
    minPeriodSamples := 1, maxPeriodSamples := 3 }

/-- `paramsEx` with interpolation requested. -/
def paramsExI : Params := { paramsEx with ShouldInterpolate := true }

/-- The detector `New pow10One paramsExI` constructs. -/
def pdExI : PitchDetector := { pdEx with params := paramsExI }

/-- A concrete valid spectrum of length `8/2+1 = 5` with nonzero energy. -/
def specEx : List ℚ := [0, 1, 1, 1, 1]

/-- A zero-energy spectrum of length 5. -/
def specZero : List ℚ := [0, 0, 0, 0, 0]

/-- Concrete FFT-collaborator output making the CMND minimum over `[1, 3]` sit at the
left endpoint 1: yields `yin = [1, 1, 4/3, 6/5, 8/7]` for `specEx`. -/
def fftReEx : List ℚ → ℕ → ℚ := fun _ i => if i = 1 then 7 else 6

/-- Concrete FFT-collaborator output making the CMND minimum over `[1, 3]` sit at the
interior index 2: yields `yin = [1, 1, 2/3, 12/7, 16/11]` for `specEx`. -/
def fftReMid : List ℚ → ℕ → ℚ := fun _ i => if i = 1 then 7 else if i = 2 then 15/2 else 6

/-- Parameters with `MinFrequency = MaxFrequency = 1000`: `ceil(44100/1000) = 45` and
`floor(44100/1000) = 44` still differ, so `New` accepts them. -/
def params1000 : Params :=
  { FrameSize := 4096, SampleRate := 44100, ShouldInterpolate := false, Tolerance := 1,
    WeightingType := "EMPTY", MinFrequency := 1000, MaxFrequency := 1000 }

/-- Parameters with a negative `MaxFrequency`; `New` accepts them and derives
`minPeriodSamples = floor(44100 / -100) = -441`. -/
def paramsNeg : Params :=
  { FrameSize := 4096, SampleRate := 44100, ShouldInterpolate := false, Tolerance := 1,
    WeightingType := "EMPTY", MinFrequency := 20, MaxFrequency := -100 }

end yinfft

namespace peakdetector

/-- Valid peak-detector configuration whose start-of-scan special case lands beyond
`MaxPosition`: range 10 over 3 samples gives `scale = 5`, scan start
`ceil(1/5) = 1`, and the descending-start peak sits at position `1*5 = 5 > 2`. -/
def cfgStart : Params :=
  { Range := 10, MaxPeaks := 10, MaxPosition := 2, MinPosition := 1, Threshold := 0,
    OrderBy := "position", ShouldInterpolate := false, MinPeakDistance := 0 }

/-- Strictly decreasing input for `cfgStart`. -/
def inputStart : List ℚ := [5, 3, 1]

/-- Valid configuration with `MinPeakDistance = 10`: on `inputThree` the strongest of the
three detected peaks suppresses both others, so the frozen-bound pruning loop indexes a
1-element list at position 1 and panics. -/
def cfgPrune : Params :=
  { Range := 6, MaxPeaks := 10, MaxPosition := 6, MinPosition := 0, Threshold := -1,
    OrderBy := "amplitude", ShouldInterpolate := false, MinPeakDistance := 10 }

/-- Input with local maxima 5, 4, 3 at indices 1, 3, 5 (scale 1 under `cfgPrune`). -/
def inputThree : List ℚ := [0, 5, 0, 4, 0, 3, 0]

end peakdetector

namespace yinfft

theorem weightsAux_emptyCurve (pow10 : ℚ → ℚ) (fs : ℕ) (sr : ℚ) (hp : pow10 0 = 1) :
    ∀ bins j, weightsAux pow10 fs sr emptyCurve bins j = List.replicate bins.length 1 := by
  intro bins
  induction bins with
  | nil => intro j; rfl
  | cons i rest ih =>
    intro j
    have hz : ∀ k, emptyCurve.getD k 0 = 0 := by
      intro k
      simp [emptyCurve, List.getD_eq_getElem?_getD, List.getElem?_getD_replicate_default_eq]
    simp only [weightsAux, hz, lineGain]
    rw [ih]
    simp [hp]
    rw [List.replicate_succ]

end yinfft

namespace yinfft

theorem pdEx_weights : pdEx.weights = [1, 1, 1, 1, 1] := by
  show computeSpectrumWeights pow10One 8 8 emptyCurve = _
  rw [computeSpectrumWeights, weightsAux_emptyCurve pow10One 8 8 rfl]
  rfl

theorem goToUpper_EMPTY : goToUpper "EMPTY" = "EMPTY" := rfl

theorem New_paramsEx : New pow10One paramsEx = .ok pdEx := by
  have hc : ⌈paramsEx.SampleRate / paramsEx.MinFrequency⌉ = (3:ℤ) := by
    simp only [paramsEx]
    rw [Int.ceil_eq_iff] <;> norm_num
  have hf : ⌊paramsEx.SampleRate / paramsEx.MaxFrequency⌋ = (1:ℤ) := by
    simp only [paramsEx]
    norm_num
  unfold New
  rw [hc, hf]
  norm_num [paramsEx, min_def, weightingCurves, goToUpper_EMPTY, pdEx]

end yinfft

namespace yinfft

theorem weightsEx : computeSpectrumWeights pow10One 8 8 emptyCurve = [1, 1, 1, 1, 1] := by
  rw [computeSpectrumWeights, weightsAux_emptyCurve pow10One 8 8 rfl]
  rfl

theorem sumOf_pdEx_specEx : sumOf pdEx specEx = 8 := by
  norm_num [sumOf, sqrMagFn, pdEx, paramsEx, weightsEx, specEx, List.range', List.getD]

theorem yinOf_pdEx_fftReEx : yinOf pdEx fftReEx specEx = [1, 1, 4/3, 6/5, 8/7] := by
  simp only [yinOf, sumOf_pdEx_specEx]
  norm_num [pdEx, paramsEx]
  rw [show List.range 5 = [0, 1, 2, 3, 4] from rfl]
  norm_num [yinAt, yinTmp, fftReEx, List.range']

theorem detect_pdEx_fftReEx : detectFromSpectrum pdEx fftReEx specEx = .ok (0, 0) := by
  simp only [detectFromSpectrum, sumOf_pdEx_specEx, yinOf_pdEx_fftReEx]
  norm_num [pdEx, paramsEx, specEx, goSlicesMin, directScan, scanStep, List.range',
    List.getD, List.foldl]

end yinfft

namespace yinfft

theorem New_paramsExI : New pow10One paramsExI = .ok pdExI := by
  have hc : ⌈paramsExI.SampleRate / paramsExI.MinFrequency⌉ = (3:ℤ) := by
    simp only [paramsExI, paramsEx]
    rw [Int.ceil_eq_iff] <;> norm_num
  have hf : ⌊paramsExI.SampleRate / paramsExI.MaxFrequency⌋ = (1:ℤ) := by
    simp only [paramsExI, paramsEx]
    norm_num
  unfold New
  rw [hc, hf]
  norm_num [paramsExI, paramsEx, min_def, weightingCurves, goToUpper_EMPTY, pdExI, pdEx]

theorem sumOf_pdExI_specEx : sumOf pdExI specEx = 8 := by
  norm_num [sumOf, sqrMagFn, pdExI, pdEx, paramsExI, paramsEx, weightsEx, specEx,
    List.range', List.getD]

theorem yinOf_pdExI_fftReEx : yinOf pdExI fftReEx specEx = [1, 1, 4/3, 6/5, 8/7] := by
  simp only [yinOf, sumOf_pdExI_specEx]
  norm_num [pdExI, pdEx, paramsExI, paramsEx]
  rw [show List.range 5 = [0, 1, 2, 3, 4] from rfl]
  norm_num [yinAt, yinTmp, fftReEx, List.range']

theorem detect_pdExI_err : detectFromSpectrum pdExI fftReEx specEx =
    .err "interpolation is not yet implemented" := by
  simp only [detectFromSpectrum, sumOf_pdExI_specEx, yinOf_pdExI_fftReEx]
  norm_num [pdExI, pdEx, paramsExI, paramsEx, specEx, goSlicesMin]

theorem yinOf_pdEx_fftReMid : yinOf pdEx fftReMid specEx = [1, 1, 2/3, 12/7, 16/11] := by
  simp only [yinOf, sumOf_pdEx_specEx]
  norm_num [pdEx, paramsEx]
  rw [show List.range 5 = [0, 1, 2, 3, 4] from rfl]
  norm_num [yinAt, yinTmp, fftReMid, List.range']

theorem detect_pdEx_fftReMid : detectFromSpectrum pdEx fftReMid specEx = .ok (4, 1/3) := by
  simp only [detectFromSpectrum, sumOf_pdEx_specEx, yinOf_pdEx_fftReMid]
  norm_num [pdEx, paramsEx, specEx, goSlicesMin, directScan, scanStep, List.range',
    List.getD, List.foldl]

theorem New_params1000 : (New pow10One params1000).toOption.map
    (fun pd => (pd.minPeriodSamples, pd.maxPeriodSamples)) = some (44, 45) := by
  have hc : ⌈params1000.SampleRate / params1000.MinFrequency⌉ = (45:ℤ) := by
    simp only [params1000]
    rw [Int.ceil_eq_iff] <;> norm_num
  have hf : ⌊params1000.SampleRate / params1000.MaxFrequency⌋ = (44:ℤ) := by
    simp only [params1000]
    norm_num
  unfold New
  rw [hc, hf]
  norm_num [params1000, min_def, weightingCurves, goToUpper_EMPTY, Except.toOption]

theorem New_paramsNeg : (New pow10One paramsNeg).toOption.map
    (fun pd => pd.minPeriodSamples) = some (-441) := by
  have hc : ⌈paramsNeg.SampleRate / paramsNeg.MinFrequency⌉ = (2205:ℤ) := by
    simp only [paramsNeg]
    rw [Int.ceil_eq_iff] <;> norm_num
  have hf : ⌊paramsNeg.SampleRate / paramsNeg.MaxFrequency⌋ = (-441:ℤ) := by
    simp only [paramsNeg]
    norm_num
  unfold New
  rw [hc, hf]
  norm_num [paramsNeg, min_def, weightingCurves, goToUpper_EMPTY, Except.toOption]

end yinfft


namespace peakdetector

theorem scale_cfgStart : scaleOf cfgStart inputStart = 5 := by
  norm_num [scaleOf, cfgStart, inputStart]

theorem start_cfgStart : startIndex cfgStart inputStart = 1 := by
  rw [startIndex, scale_cfgStart]
  rw [show cfgStart.MinPosition / 5 = 1/5 by norm_num [cfgStart]]
  rw [show ⌈(1:ℚ)/5⌉ = 1 by rw [Int.ceil_eq_iff] <;> norm_num]
  rfl

theorem startPeaks_cfgStart : startPeakList cfgStart inputStart = [⟨5, 3⟩] := by
  simp only [startPeakList, start_cfgStart, scale_cfgStart]
  norm_num [at', inputStart, cfgStart]

theorem lastPeaks_cfgStart : lastPeakList cfgStart inputStart = [] := by
  simp only [lastPeakList, scale_cfgStart]
  norm_num [at', inputStart, cfgStart]

theorem scan_cfgStart : interiorScan cfgStart inputStart 5 4 1 = .ok ([], []) := by
  have hD : advDown inputStart 1 = 1 := by norm_num [advDown, advDownAux, at', inputStart]
  have hU : advUp inputStart 1 = 1 := by norm_num [advUp, advUpAux, at', inputStart]
  have hP : plateau inputStart 1 = 1 := by norm_num [plateau, plateauAux, at', inputStart]
  simp only [interiorScan, hD, hU, hP]
  norm_num [at', inputStart, cfgStart, List.getD, candidateOf, candidateVB, peaksOfCand, trailingOf]

theorem detect_cfgStart : detectPeaks cfgStart inputStart = .ok ([5], [3]) := by
  simp only [detectPeaks, scale_cfgStart, start_cfgStart, startPeaks_cfgStart,
    lastPeaks_cfgStart, show inputStart.length = 3 from rfl, Nat.reduceAdd, scan_cfgStart]
  norm_num [orderOrPrune, cfgStart, min_def, String.reduceEq]
  simp

end peakdetector

namespace peakdetector

theorem scale_cfgPrune : scaleOf cfgPrune inputThree = 1 := by
  norm_num [scaleOf, cfgPrune, inputThree]

theorem start_cfgPrune : startIndex cfgPrune inputThree = 0 := by
  rw [startIndex, scale_cfgPrune]
  rw [show cfgPrune.MinPosition / 1 = 0 by norm_num [cfgPrune]]
  simp

theorem startPeaks_cfgPrune : startPeakList cfgPrune inputThree = [] := by
  simp only [startPeakList, start_cfgPrune, scale_cfgPrune]
  norm_num [at', inputThree, cfgPrune]

theorem lastPeaks_cfgPrune : lastPeakList cfgPrune inputThree = [] := by
  simp only [lastPeakList, scale_cfgPrune]
  norm_num [at', inputThree, cfgPrune]

set_option maxRecDepth 40000 in
theorem scan_cfgPrune : interiorScan cfgPrune inputThree 1 8 0 =
    .ok ([⟨1, 5⟩, ⟨3, 4⟩], [⟨5, 3⟩]) := by
  have hD0 : advDown inputThree 0 = 0 := by norm_num [advDown, advDownAux, at', inputThree]
  have hU0 : advUp inputThree 0 = 1 := by norm_num [advUp, advUpAux, at', inputThree]
  have hP1 : plateau inputThree 1 = 1 := by norm_num [plateau, plateauAux, at', inputThree]
  have hD1 : advDown inputThree 1 = 2 := by norm_num [advDown, advDownAux, at', inputThree]
  have hU2 : advUp inputThree 2 = 3 := by norm_num [advUp, advUpAux, at', inputThree]
  have hP3 : plateau inputThree 3 = 3 := by norm_num [plateau, plateauAux, at', inputThree]
  have hD3 : advDown inputThree 3 = 4 := by norm_num [advDown, advDownAux, at', inputThree]
  have hU4 : advUp inputThree 4 = 5 := by norm_num [advUp, advUpAux, at', inputThree]
  have hP5 : plateau inputThree 5 = 5 := by norm_num [plateau, plateauAux, at', inputThree]
  have h3 : interiorScan cfgPrune inputThree 1 6 3 = .ok ([], [⟨5, 3⟩]) := by
    rw [show (6:ℕ) = 5 + 1 from rfl, interiorScan.eq_2]
    simp only [hD3, hU4, hP5]
    norm_num [at', inputThree, cfgPrune, List.getD, candidateOf, candidateVB, peaksOfCand, trailingOf]
    simp
  have h1 : interiorScan cfgPrune inputThree 1 7 1 = .ok ([⟨3, 4⟩], [⟨5, 3⟩]) := by
    rw [show (7:ℕ) = 6 + 1 from rfl, interiorScan.eq_2]
    simp only [hD1, hU2, hP3, h3]
    norm_num [at', inputThree, cfgPrune, List.getD, candidateOf, candidateVB, peaksOfCand, trailingOf]
    simp
  rw [show (8:ℕ) = 7 + 1 from rfl, interiorScan.eq_2]
  simp only [hD0, hU0, hP1, h1]
  norm_num [at', inputThree, cfgPrune, List.getD, candidateOf, candidateVB, peaksOfCand, trailingOf]
  simp

end peakdetector

namespace peakdetector

theorem detect_cfgPrune : detectPeaks cfgPrune inputThree = .panic := by
  have hsort : sortPeaksByMagnitude [⟨1, 5⟩, ⟨3, 4⟩, ⟨5, 3⟩] = [⟨1, 5⟩, ⟨3, 4⟩, ⟨5, 3⟩] := by
    norm_num [sortPeaksByMagnitude, insertByMag, magLE]
  have hprune : pruneLoop 10 2 0 [⟨1, 5⟩, ⟨3, 4⟩, ⟨5, 3⟩] = .panic := by
    norm_num [pruneLoop, pruneLoopAux, List.getD]
  have horder : orderOrPrune cfgPrune [⟨1, 5⟩, ⟨3, 4⟩, ⟨5, 3⟩] = .panic := by
    simp only [orderOrPrune, hsort]
    norm_num [cfgPrune, hprune]
  simp only [detectPeaks, scale_cfgPrune, start_cfgPrune, startPeaks_cfgPrune,
    lastPeaks_cfgPrune, show inputThree.length = 7 from rfl, Nat.reduceAdd, scan_cfgPrune]
  norm_num [horder]

end peakdetector

namespace peakdetector

theorem candidateOf_pos_le (p : Params) (input : List ℚ) (scale : ℚ) (i2 j : ℕ) (pk : Peak)
    (h : candidateOf p input scale i2 j = some (some pk)) :
    pk.position ≤ p.MaxPosition := by
  unfold candidateOf at h
  split at h
  · simp only at h
    split at h
    · exact absurd h (by simp)
    · rename_i hle
      injection h with h1
      injection h1 with h2
      rw [← h2]
      exact le_of_not_lt hle
  · exact absurd h (by simp)

theorem peaksOfCand_all (p : Params) (input : List ℚ) (scale : ℚ) (i2 j : ℕ)
    (cand : Option (Option Peak)) (hc : cand = candidateOf p input scale i2 j)
    (hne : cand ≠ some none) :
    (peaksOfCand cand).all (fun pk => decide (pk.position ≤ p.MaxPosition)) = true := by
  match cand with
  | none => rfl
  | some none => exact absurd rfl hne
  | some (some pk) =>
    simp only [peaksOfCand, List.all_cons, List.all_nil, Bool.and_true]
    exact decide_eq_true (candidateOf_pos_le p input scale i2 j pk hc.symm)

/-- C4 (amended): every peak reported by the interior-candidate branch of
`DetectPeaks` has position at most `MaxPosition` — the interior scan stops at the first
candidate beyond it.  The boundary special cases (descending start, trailing local
maximum, final sample) are appended without that check; see the counterexample. -/
theorem c4_interior_peaks_within_max_position (p : Params) (input : List ℚ) (scale : ℚ) :
    ∀ fuel i, (interiorPeaksOf p input scale fuel i).all
      (fun pk => decide (pk.position ≤ p.MaxPosition)) = true := by
  intro fuel
  induction fuel with
  | zero => intro i; rfl
  | succ fuel ih =>
    intro i
    simp only [interiorPeaksOf, interiorScan]
    by_cases hc : candidateOf p input scale (advUp input (advDown input i))
        (plateau input (advUp input (advDown input i))) = some none
    · simp [hc]
    · rw [if_neg hc]
      by_cases hexit : plateau input (advUp input (advDown input i)) + 1 ≥ input.length - 1
      · rw [if_pos hexit]
        cases htr : trailingOf p input scale (plateau input (advUp input (advDown input i))) with
        | ok tr => exact peaksOfCand_all p input scale _ _ _ rfl hc
        | err e => rfl
        | panic => rfl
      · rw [if_neg hexit]
        cases hrec : interiorScan p input scale fuel
            (plateau input (advUp input (advDown input i))) with
        | ok pr =>
          obtain ⟨rest, trail⟩ := pr
          have h2 : rest.all (fun pk => decide (pk.position ≤ p.MaxPosition)) = true := by
            have := ih (plateau input (advUp input (advDown input i)))
            rw [interiorPeaksOf, hrec] at this
            exact this
          rw [List.all_append, peaksOfCand_all p input scale _ _ _ rfl hc, h2]
          rfl
        | err e => rfl
        | panic => rfl

end peakdetector

namespace yinfft

theorem scanFold_spec (f : ℕ → ℚ) (lo : ℕ) : ∀ c,
    ∃ j0, lo ≤ j0 ∧ j0 ≤ lo + c ∧
      (List.range' lo (c + 1)).foldl (scanStep f) (0, f lo) =
        (if j0 = lo then 0 else (j0 : ℚ), f j0) ∧
      (∀ j, lo ≤ j → j ≤ lo + c → f j0 ≤ f j) ∧
      (∀ j, lo ≤ j → j < j0 → f j0 < f j) := by
  intro c
  induction c with
  | zero =>
    refine ⟨lo, le_refl lo, by omega, ?_, ?_, ?_⟩
    · simp [scanStep]
    · intro j h1 h2
      have : j = lo := by omega
      rw [this]
    · intro j h1 h2
      omega
  | succ c ih =>
    obtain ⟨j0, hj1, hj2, hfold, hmin, hstrict⟩ := ih
    by_cases hlt : f (lo + (c + 1)) < f j0
    · refine ⟨lo + (c + 1), by omega, by omega, ?_, ?_, ?_⟩
      · rw [List.range'_1_concat, List.foldl_append, hfold]
        simp only [List.foldl_cons, List.foldl_nil, scanStep]
        rw [if_pos hlt, if_neg (by omega)]
      · intro j h1 h2
        rcases Nat.lt_or_ge j (lo + c + 1) with hj | hj
        · exact le_of_lt (lt_of_lt_of_le hlt (hmin j h1 (by omega)))
        · have hje : j = lo + (c + 1) := by omega
          rw [hje]
      · intro j h1 h2
        exact lt_of_lt_of_le hlt (hmin j h1 (by omega))
    · refine ⟨j0, hj1, by omega, ?_, ?_, hstrict⟩
      · rw [List.range'_1_concat, List.foldl_append, hfold]
        simp only [List.foldl_cons, List.foldl_nil, scanStep]
        rw [if_neg hlt]
      · intro j h1 h2
        rcases Nat.lt_or_ge j (lo + c + 1) with hj | hj
        · exact hmin j h1 (by omega)
        · have hje : j = lo + (c + 1) := by omega
          rw [hje]
          exact le_of_not_lt hlt

end yinfft

namespace yinfft

theorem directScan_spec (f : ℕ → ℚ) (lo hi istar : ℕ) (hlohi : lo ≤ hi)
    (hstar : leastArgminOn f lo hi istar) :
    directScan f lo hi = (if istar = lo then 0 else (istar : ℚ), f istar) := by
  obtain ⟨h1, h2, hmin, hstrict⟩ := hstar
  obtain ⟨j0, hj1, hj2, hfold, hmin0, hstrict0⟩ := scanFold_spec f lo (hi - lo)
  have hrange : directScan f lo hi =
      (List.range' lo (hi - lo + 1)).foldl (scanStep f) (0, f lo) := by
    rw [directScan, show hi + 1 - lo = hi - lo + 1 by omega]
  have hju : istar = j0 := by
    have ha : f istar ≤ f j0 := hmin j0 (by omega) (by omega)
    have hb : f j0 ≤ f istar := hmin0 istar (by omega) (by omega)
    rcases lt_trichotomy istar j0 with h | h | h
    · have := hstrict0 istar (by omega) h
      linarith
    · exact h
    · have := hstrict j0 h (by omega)
      linarith
  rw [hrange, hfold, hju]

end yinfft

namespace yinfft

/-- C2 (amended): on the direct-scan path (valid spectrum length, nonzero frame size
and weighted energy, no tolerance exit, interpolation off, period bounds `lo ≤ hi`
inside the CMND array), let `istar` be the lowest index attaining the minimum of `yin`
over `[lo, hi]`.  Then `DetectFromSpectrum` returns `(SampleRate/istar, 1 - yin[istar])`
when `istar > lo`, but returns the `(0, 0)` fallback when the minimum is attained at
`lo` itself, because the Go loop leaves `tau = 0` in that case. -/
theorem c2_direct_scan_least_argmin (pd : PitchDetector) (fftRe : List ℚ → ℕ → ℚ) (spectrum : List ℚ)
    (lo hi istar : ℕ)
    (hlen : spectrum.length = pd.params.FrameSize / 2 + 1)
    (hfs : pd.params.FrameSize ≠ 0)
    (hsum : sumOf pd spectrum ≠ 0)
    (htol : ¬(pd.params.Tolerance < 1 ∧
      pd.params.Tolerance ≤ goSlicesMin (yinOf pd fftRe spectrum)))
    (hint : pd.params.ShouldInterpolate = false)
    (hlo : pd.minPeriodSamples = (lo : ℤ))
    (hhi : pd.maxPeriodSamples = (hi : ℤ))
    (hlohi : lo ≤ hi)
    (hhiB : hi < pd.params.FrameSize / 2 + 1)
    (hstar : leastArgminOn (fun i => (yinOf pd fftRe spectrum).getD i 0) lo hi istar) :
    (lo < istar → detectFromSpectrum pd fftRe spectrum =
      .ok (pd.params.SampleRate / (istar : ℚ),
           1 - (yinOf pd fftRe spectrum).getD istar 0)) ∧
    (istar = lo → detectFromSpectrum pd fftRe spectrum = .ok (0, 0)) := by
  have hscan := directScan_spec (fun i => (yinOf pd fftRe spectrum).getD i 0) lo hi istar
    hlohi hstar
  have hdet : detectFromSpectrum pd fftRe spectrum =
      (if (if istar = lo then (0:ℚ) else (istar : ℚ)) ≠ 0 then
        .ok (pd.params.SampleRate / (if istar = lo then (0:ℚ) else (istar : ℚ)),
             1 - (yinOf pd fftRe spectrum).getD istar 0)
      else .ok (0, 0)) := by
    simp only [detectFromSpectrum]
    rw [if_neg (by rw [hlen]; exact fun h => h rfl)]
    rw [if_neg hfs, if_neg hsum, if_neg htol, hint]
    simp only [Bool.false_eq_true, if_false]
    rw [hlo, hhi]
    rw [if_pos (by
      refine ⟨by positivity, ?_, fun _ => by exact_mod_cast hhiB⟩
      exact_mod_cast lt_of_le_of_lt hlohi hhiB)]
    simp only [Int.toNat_natCast]
    rw [hscan]
  constructor
  · intro hgt
    rw [hdet]
    rw [if_neg (show ¬(istar = lo) by omega)]
    rw [if_pos (show ¬((istar : ℚ) = 0) from Nat.cast_ne_zero.mpr (by omega))]
  · intro heq
    rw [hdet, if_pos heq]
    simp

end yinfft

namespace yinfft

theorem New_ok_spec (pow10 : ℚ → ℚ) (params : Params) (pd : PitchDetector)
    (h : New pow10 params = .ok pd) :
    pd.minPeriodSamples =
      min ⌊params.SampleRate / params.MaxFrequency⌋ ((params.FrameSize / 2 : ℕ) : ℤ) ∧
    pd.maxPeriodSamples =
      min ⌈params.SampleRate / params.MinFrequency⌉ ((params.FrameSize / 2 : ℕ) : ℤ) ∧
    pd.minPeriodSamples < pd.maxPeriodSamples := by
  simp only [New] at h
  split at h
  · exact absurd h (by simp)
  · rename_i hcmp
    split at h
    · exact absurd h (by simp)
    · injection h with h1
      rw [← h1]
      exact ⟨rfl, rfl, lt_of_not_le (by simpa using hcmp)⟩

/-- C5: the three "no pitch" outcomes — a zero weighted-energy spectrum, the tolerance
early exit, and a resolved `tau` of 0 in the direct scan — are all returned as the
sentinel `(0, 0)` with no error and no panic. -/
theorem c5_no_pitch_sentinel_ok_zero (pd : PitchDetector) (fftRe : List ℚ → ℕ → ℚ) (spectrum : List ℚ)
    (hlen : spectrum.length = pd.params.FrameSize / 2 + 1)
    (hfs : pd.params.FrameSize ≠ 0)
    (h : sumOf pd spectrum = 0 ∨
      (sumOf pd spectrum ≠ 0 ∧ pd.params.Tolerance < 1 ∧
        pd.params.Tolerance ≤ goSlicesMin (yinOf pd fftRe spectrum)) ∨
      (sumOf pd spectrum ≠ 0 ∧
        ¬(pd.params.Tolerance < 1 ∧
          pd.params.Tolerance ≤ goSlicesMin (yinOf pd fftRe spectrum)) ∧
        pd.params.ShouldInterpolate = false ∧
        (0 ≤ pd.minPeriodSamples ∧
          pd.minPeriodSamples < ((pd.params.FrameSize / 2 + 1 : ℕ) : ℤ) ∧
          (pd.minPeriodSamples ≤ pd.maxPeriodSamples →
            pd.maxPeriodSamples < ((pd.params.FrameSize / 2 + 1 : ℕ) : ℤ))) ∧
        (directScan (fun i => (yinOf pd fftRe spectrum).getD i 0)
          pd.minPeriodSamples.toNat pd.maxPeriodSamples.toNat).1 = 0)) :
    detectFromSpectrum pd fftRe spectrum = .ok (0, 0) := by
  simp only [detectFromSpectrum]
  rw [if_neg (by rw [hlen]; exact fun hx => hx rfl), if_neg hfs]
  rcases h with hzero | ⟨hsum, htl⟩ | ⟨hsum, htol, hint, hbounds, htau⟩
  · rw [if_pos hzero]
  · rw [if_neg hsum, if_pos htl]
  · rw [if_neg hsum, if_neg htol, hint]
    simp only [Bool.false_eq_true, if_false]
    rw [if_pos hbounds, if_neg (by simpa using htau)]

end yinfft

namespace yinfft

theorem sumOf_pdEx_specZero : sumOf pdEx specZero = 0 := by
  norm_num [sumOf, sqrMagFn, pdEx, paramsEx, weightsEx, specZero, List.range', List.getD]

/-- C6: with the EMPTY (all-zero decibel) weighting curve, the computed weight table
has exactly `frameSize/2 + 1` entries and every entry equals exactly 1
(`0 dB` converts to linear gain `pow10 0 = 1`). -/
theorem c6_empty_curve_unit_weights (frameSize : ℕ) (sampleRate : ℚ) (pow10 : ℚ → ℚ)
    (hfs : 1 ≤ frameSize) (hp : pow10 0 = 1) :
    (computeSpectrumWeights pow10 frameSize sampleRate emptyCurve).length =
      frameSize / 2 + 1 ∧
    (computeSpectrumWeights pow10 frameSize sampleRate emptyCurve).all
      (fun w => decide (w = 1)) = true := by
  rw [computeSpectrumWeights, weightsAux_emptyCurve pow10 frameSize sampleRate hp]
  constructor
  · simp
  · simp [List.all_eq_true, List.eq_of_mem_replicate]

/-- C7: in the general branch of the weight computation (breakpoints with
`f0 ≠ f1` and `f0 ≠ 0`), the code's decibel expression
`(a1-a0)/(f1-f0)*f + (a0 - (a1-a0)/(f1/f0-1))` passes exactly through both
breakpoints: it equals `a0` at `f = f0` and `a1` at `f = f1`, as an exact rational
identity. -/
theorem c7_weight_line_through_breakpoints (a0 a1 f0 f1 : ℚ) (h01 : f0 ≠ f1) (h0 : f0 ≠ 0) :
    lineGain a0 a1 f0 f1 f0 = a0 ∧ lineGain a0 a1 f0 f1 f1 = a1 := by
  have hd : f1 - f0 ≠ 0 := sub_ne_zero.mpr (Ne.symm h01)
  have hr : f1 / f0 - 1 ≠ 0 := by
    rw [div_sub_one h0]
    exact div_ne_zero hd h0
  unfold lineGain
  constructor
  · field_simp
  · field_simp
    ring

end yinfft

namespace peakdetector

/-- C8: parabolic interpolation returns magnitude `m - (1/4)(l-r)δ` and position
`n + δ` with `δ = (1/2)(l-r)/(l-2m+r)`; for the symmetric triple `(1, 4, 1)` at index 5
it returns magnitude exactly 4 and position exactly 5. -/
theorem c8_parabolic_interpolation_exact :
    (∀ l m r : ℚ, ∀ n : ℕ,
      interpolate l m r n =
        (m - 1/4 * (l - r) * (1/2 * ((l - r) / (l - 2 * m + r))),
         (n : ℚ) + 1/2 * ((l - r) / (l - 2 * m + r)))) ∧
    interpolate 1 4 1 5 = (4, 5) := by
  refine ⟨fun l m r n => rfl, ?_⟩
  norm_num [interpolate]

/-- C9 (amended): the pruning loop freezes its iteration bound before deletions, and
`peaks[k]` can go out of bounds once deletions shrink the list (see the counterexample
where `DetectPeaks` panics); with at most two collected peaks the access is always in
bounds and the loop never panics. -/
theorem c9_prune_inbounds_for_two_peaks (dist : ℚ) (peaks : List Peak) (h : peaks.length ≤ 2) :
    pruneLoop dist (peaks.length - 1) 0 peaks ≠ .panic := by
  match peaks, h with
  | [], _ => simp [pruneLoop, pruneLoopAux]
  | [a], _ => simp [pruneLoop, pruneLoopAux]
  | [a, b], _ =>
    simp only [pruneLoop, pruneLoopAux, List.length_cons, List.length_nil]
    norm_num
    exact fun hx => GoOutcome.noConfusion hx

end peakdetector

namespace peakdetector

theorem New_cfgStart : New cfgStart = .ok cfgStart := by
  norm_num [New, cfgStart]

theorem New_cfgPrune : New cfgPrune = .ok cfgPrune := by
  norm_num [New, cfgPrune]

end peakdetector

namespace yinfft

/-- C10 (amended): for positive frequency bounds and a nonnegative sample rate, every
detector accepted by `New` satisfies `0 ≤ minPeriodSamples < maxPeriodSamples ≤
frameSize/2`, so every index of the direct-scan range `[minPeriodSamples,
maxPeriodSamples]` lies inside the CMND array of length `frameSize/2 + 1`.  (Without
the positivity assumptions this fails; see the counterexample.) -/
theorem c10_positive_frequency_bounds_safe (pow10 : ℚ → ℚ) (params : Params) (pd : PitchDetector)
    (hminf : 0 < params.MinFrequency) (hmaxf : 0 < params.MaxFrequency)
    (hsr : 0 ≤ params.SampleRate) (h : New pow10 params = .ok pd) :
    0 ≤ pd.minPeriodSamples ∧ pd.minPeriodSamples < pd.maxPeriodSamples ∧
    pd.maxPeriodSamples ≤ ((params.FrameSize / 2 : ℕ) : ℤ) ∧
    (∀ i : ℤ, pd.minPeriodSamples ≤ i → i ≤ pd.maxPeriodSamples →
      0 ≤ i ∧ i < ((params.FrameSize / 2 + 1 : ℕ) : ℤ)) := by
  obtain ⟨hmin, hmax, hlt⟩ := New_ok_spec pow10 params pd h
  have h0 : (0:ℤ) ≤ ⌊params.SampleRate / params.MaxFrequency⌋ :=
    Int.floor_nonneg.mpr (div_nonneg hsr hmaxf.le)
  have h0n : (0:ℤ) ≤ ((params.FrameSize / 2 : ℕ) : ℤ) := Int.natCast_nonneg _
  have hminnn : 0 ≤ pd.minPeriodSamples := by
    rw [hmin]
    exact le_min h0 h0n
  have hmaxle : pd.maxPeriodSamples ≤ ((params.FrameSize / 2 : ℕ) : ℤ) := by
    rw [hmax]
    exact min_le_right _ _
  refine ⟨hminnn, hlt, hmaxle, fun i hi1 hi2 => ⟨le_trans hminnn hi1, ?_⟩⟩
  have hc : ((params.FrameSize / 2 : ℕ) : ℤ) < ((params.FrameSize / 2 + 1 : ℕ) : ℤ) := by
    push_cast
    omega
  omega

theorem argmin_fftReEx : leastArgminOn
    (fun i => (yinOf pdEx fftReEx specEx).getD i 0) 1 3 1 := by
  refine ⟨le_refl 1, by norm_num, ?_, ?_⟩
  · intro j h1 h2
    interval_cases j <;> norm_num [yinOf_pdEx_fftReEx, List.getD]
  · intro j h1 h2
    omega

theorem argmin_fftReMid : leastArgminOn
    (fun i => (yinOf pdEx fftReMid specEx).getD i 0) 1 3 2 := by
  refine ⟨by norm_num, by norm_num, ?_, ?_⟩
  · intro j h1 h2
    interval_cases j <;> norm_num [yinOf_pdEx_fftReMid, List.getD]
  · intro j h1 h2
    have hj : j = 1 := by omega
    rw [hj]
    norm_num [yinOf_pdEx_fftReMid, List.getD]

end yinfft

namespace yinfft

/-- C1: the specification mandates that with `ShouldInterpolate = true`,
`DetectFromSpectrum` refines tau via the peak detector and does not fail with an
unconditional "not implemented" error.  The code violates this: a validly constructed
interpolating detector returns exactly that error on a valid spectrum that passes the
zero-energy and tolerance checks. -/
theorem c1_interpolation_branch_unimplemented :
    New pow10One paramsExI = .ok pdExI ∧
    detectFromSpectrum pdExI fftReEx specEx = .err "interpolation is not yet implemented" :=
  ⟨New_paramsExI, detect_pdExI_err⟩

/-- C2 (counterexample): a detector accepted by `New` with `minPeriodSamples = 1`,
an FFT output whose CMND minimum over `[1, 3]` is attained first at index 1 itself —
the claim demands the result `(SampleRate/1, 1 - yin[1]) = (8, 0)`, but
`DetectFromSpectrum` returns the `(0, 0)` fallback because the Go scan never assigns
`tau` when the minimum sits at the first scanned index. -/
theorem c2_counterexample_min_at_left_endpoint :
    New pow10One paramsEx = .ok pdEx ∧
    leastArgminOn (fun i => (yinOf pdEx fftReEx specEx).getD i 0) 1 3 1 ∧
    detectFromSpectrum pdEx fftReEx specEx = .ok (0, 0) ∧
    (paramsEx.SampleRate / ((1 : ℕ) : ℚ), 1 - (yinOf pdEx fftReEx specEx).getD 1 0) ≠
      ((0 : ℚ), (0 : ℚ)) :=
  ⟨New_paramsEx, argmin_fftReEx, detect_pdEx_fftReEx,
    by norm_num [paramsEx, yinOf_pdEx_fftReEx, List.getD, Prod.ext_iff]⟩

/-- C2 (witness): concrete run through the amended theorem — the CMND minimum over
`[1, 3]` sits at the interior index 2, and the detector returns
`(8/2, 1 - 2/3) = (4, 1/3)`. -/
theorem c2_direct_scan_least_argmin_witness :
    detectFromSpectrum pdEx fftReMid specEx = .ok (4, 1/3) := by
  have h := (c2_direct_scan_least_argmin pdEx fftReMid specEx 1 3 2
    (by norm_num [specEx, pdEx, paramsEx])
    (by norm_num [pdEx, paramsEx])
    (by rw [sumOf_pdEx_specEx]; norm_num)
    (by norm_num [pdEx, paramsEx])
    (by norm_num [pdEx, paramsEx])
    (by norm_num [pdEx])
    (by norm_num [pdEx])
    (by norm_num)
    (by norm_num [pdEx, paramsEx])
    argmin_fftReMid).1 (by norm_num)
  rw [h]
  simp only [yinOf_pdEx_fftReMid]
  norm_num [pdEx, paramsEx, List.getD]

/-- C3 (counterexample): `MinFrequency = MaxFrequency = 1000` with sample rate 44100 is
accepted by `New` (the derived period bounds are 44 < 45, because `ceil(44.1) = 45`
while `floor(44.1) = 44`), contradicting the claim that construction always fails when
`minFrequency ≥ maxFrequency`. -/
theorem c3_counterexample_equal_frequencies_accepted :
    (New pow10One params1000).toOption.map
      (fun pd => (pd.minPeriodSamples, pd.maxPeriodSamples)) = some (44, 45) ∧
    params1000.MinFrequency ≥ params1000.MaxFrequency :=
  ⟨New_params1000, by norm_num [params1000]⟩

/-- C3 (amended): `New` rejects exactly on the derived period bounds — every accepted
detector satisfies `minPeriodSamples < maxPeriodSamples` (but `minFrequency ≥
maxFrequency` alone need not be rejected). -/
theorem c3_accepted_period_bounds_ordered (pow10 : ℚ → ℚ) (params : Params)
    (pd : PitchDetector) (h : New pow10 params = .ok pd) :
    pd.minPeriodSamples < pd.maxPeriodSamples :=
  (New_ok_spec pow10 params pd h).2.2

/-- C3 (witness): the concrete accepted configuration `paramsEx` has ordered bounds. -/
theorem c3_accepted_period_bounds_ordered_witness :
    pdEx.minPeriodSamples < pdEx.maxPeriodSamples :=
  c3_accepted_period_bounds_ordered pow10One paramsEx pdEx New_paramsEx

/-- C5 (witness): a zero-energy spectrum yields the `(0, 0)` sentinel with no error. -/
theorem c5_no_pitch_sentinel_ok_zero_witness :
    detectFromSpectrum pdEx fftReEx specZero = .ok (0, 0) :=
  c5_no_pitch_sentinel_ok_zero pdEx fftReEx specZero
    (by norm_num [specZero, pdEx, paramsEx])
    (by norm_num [pdEx, paramsEx])
    (Or.inl sumOf_pdEx_specZero)

/-- C6 (witness): frame size 8, sample rate 44100 — five bins, all of weight 1. -/
theorem c6_empty_curve_unit_weights_witness :
    (computeSpectrumWeights pow10One 8 44100 emptyCurve).length = 8 / 2 + 1 ∧
    (computeSpectrumWeights pow10One 8 44100 emptyCurve).all
      (fun w => decide (w = 1)) = true :=
  c6_empty_curve_unit_weights 8 44100 pow10One (by norm_num) rfl

/-- C7 (witness): the line through breakpoints (2, 1) and (5, 3) evaluates to the
breakpoint gains at the breakpoint frequencies. -/
theorem c7_weight_line_through_breakpoints_witness :
    lineGain 1 3 2 5 2 = 1 ∧ lineGain 1 3 2 5 5 = 3 :=
  c7_weight_line_through_breakpoints 1 3 2 5 (by norm_num) (by norm_num)

/-- C10 (counterexample): `New` accepts a negative `MaxFrequency` and derives the
negative `minPeriodSamples = -441`, contradicting the claim that every accepted
configuration has `0 ≤ minPeriodSamples`. -/
theorem c10_counterexample_negative_min_period :
    (New pow10One paramsNeg).toOption.map (fun pd => pd.minPeriodSamples) =
      some (-441) ∧ (-441 : ℤ) < 0 :=
  ⟨New_paramsNeg, by norm_num⟩

/-- C10 (witness): the concrete accepted configuration `paramsEx` (positive frequency
bounds) has in-range period bounds. -/
theorem c10_positive_frequency_bounds_safe_witness :
    0 ≤ pdEx.minPeriodSamples ∧ pdEx.minPeriodSamples < pdEx.maxPeriodSamples ∧
    pdEx.maxPeriodSamples ≤ ((paramsEx.FrameSize / 2 : ℕ) : ℤ) := by
  obtain ⟨h1, h2, h3, _⟩ := c10_positive_frequency_bounds_safe pow10One paramsEx pdEx
    (by norm_num [paramsEx]) (by norm_num [paramsEx]) (by norm_num [paramsEx])
    New_paramsEx
  exact ⟨h1, h2, h3⟩

end yinfft

namespace peakdetector

/-- C4 (counterexample): under the valid configuration `cfgStart` (MaxPosition = 2) the
start-of-scan special case reports a peak at position 5 > MaxPosition, so DetectPeaks
does report peaks beyond the configured window. -/
theorem c4_counterexample_start_peak_beyond_max :
    New cfgStart = .ok cfgStart ∧
    detectPeaks cfgStart inputStart = .ok ([5], [3]) ∧
    ¬((5 : ℚ) ≤ cfgStart.MaxPosition) :=
  ⟨New_cfgStart, detect_cfgStart, by norm_num [cfgStart]⟩

/-- C9 (counterexample): on `inputThree` the detector collects three peaks, the
strongest suppresses both others during minimum-distance pruning, and the frozen-bound
loop then indexes `peaks[1]` of a one-element list: `DetectPeaks` panics instead of
returning a result or an error. -/
theorem c9_counterexample_prune_panics :
    New cfgPrune = .ok cfgPrune ∧ detectPeaks cfgPrune inputThree = .panic :=
  ⟨New_cfgPrune, detect_cfgPrune⟩

/-- C9 (witness): with two collected peaks the pruning loop cannot panic. -/
theorem c9_prune_inbounds_for_two_peaks_witness :
    pruneLoop 10 (([⟨1, 5⟩, ⟨3, 4⟩] : List Peak).length - 1) 0 [⟨1, 5⟩, ⟨3, 4⟩] ≠
      .panic :=
  c9_prune_inbounds_for_two_peaks 10 [⟨1, 5⟩, ⟨3, 4⟩] (by norm_num)

end peakdetector
